import Mathlib

/-!
Shallow embedding of the mytube feed-aggregation subsystem.

Sources embedded here:
- `src/src/lib/youtube.ts` (`isShortDuration`, `getChannelVideosPage` via the
  copy in `src/unnamed/part_005`);
- `src/src/app/api/videos/route.ts` (the aggregator `GET`: `mergeUniqueById`,
  `fetchNextPages`, fill loop, pagination);
- `src/unnamed/part_002` (the incremental refresh `POST`).

Machine integers are modelled as `Int`/`Nat`; JavaScript `NaN` arising from
`parseInt` on a non-numeric string is modelled as `none : Option Int`, with
comparisons on `none` returning `false` as in JS. Publish timestamps
(`new Date(v.publishedAt).getTime()`) are modelled as `Int`. Upstream network
behaviour is a parameter (an oracle), so theorems quantify over all upstream
behaviours.
-/

namespace MyTube

/-! ### Short-form classifier

`isShortDuration` in `src/src/lib/youtube.ts` (lines 157-171):

```
function isShortDuration(duration: string): boolean {
  if (!duration) return false;
  const match = duration.match(/PT(?:(\d+)H)?(?:(\d+)M)?(?:(\d+)S)?/);
  if (!match) return false;
  const hours = parseInt(match[1] || "0", 10);
  const minutes = parseInt(match[2] || "0", 10);
  const seconds = parseInt(match[3] || "0", 10);
  const totalSeconds = hours * 3600 + minutes * 60 + seconds;
  return totalSeconds <= 180;
}
```

Because every component after the literal `PT` is optional, the regex matches
exactly when the string contains the substring `PT`; the match anchors at the
first such occurrence, and each group `(\d+)X` captures a maximal digit run
only when it is immediately followed by the letter `X`.
-/

/-- Longest prefix of digits of a character list (the greedy `\d+`). -/
def leadingDigits : List Char → List Char
  | [] => []
  | c :: cs => if c.isDigit then c :: leadingDigits cs else []

/-- Numeric value of a digit list (the `parseInt(_, 10)` on a captured group). -/
def digitsVal (cs : List Char) : Nat :=
  cs.foldl (fun a c => a * 10 + (c.toNat - 48)) 0

/-- The remainder of the string after the first occurrence of the substring
`PT`, or `none` when the string has no such occurrence (regex match failure). -/
def afterPT : List Char → Option (List Char)
  | [] => none
  | 'P' :: rest =>
    match rest with
    | 'T' :: rest' => some rest'
    | _ => afterPT rest
  | _ :: rest => afterPT rest

/-- One optional component `(?:(\d+)X)?` of the duration regex: a maximal
digit run immediately followed by the marker character consumes both and
captures the value; otherwise the group is absent and nothing is consumed. -/
def parseComp (marker : Char) (cs : List Char) : Option Nat × List Char :=
  let ds := leadingDigits cs
  match cs.drop ds.length with
  | c :: rest' => if ds ≠ [] ∧ c = marker then (some (digitsVal ds), rest') else (none, cs)
  | [] => (none, cs)

/-- Function `isShortDuration` from `src/src/lib/youtube.ts`: empty string is falsy and
yields `false`; otherwise match the regex (fails only when `PT` does not occur),
read the three optional components with absent components defaulting to `0`,
and compare total seconds against the 180-second Shorts threshold. -/
def isShortDuration (duration : String) : Bool :=
  if duration = "" then false
  else
    match afterPT duration.data with
    | none => false
    | some rest =>
      let hm := parseComp 'H' rest
      let mm := parseComp 'M' hm.2
      let sm := parseComp 'S' mm.2
      hm.1.getD 0 * 3600 + mm.1.getD 0 * 60 + sm.1.getD 0 ≤ 180

/-! ### Data model

`YouTubeVideo` items as they flow through the aggregator. The publish
timestamp is modelled as the `Int` value of `new Date(v.publishedAt).getTime()`
used by the sort comparator. -/

/-- An item of the feed (a video or short). -/
structure Video where
  id : String
  title : String
  thumbnail : Option String
  channelId : String
  channelTitle : String
  publishedAt : Int
  duration : String
  isShort : Bool
  deriving DecidableEq, Repr

/-- Per-source pagination state kept in the fetch-state cache
(`src/src/lib/cache.ts` `ChannelState`). -/
structure ChannelState where
  playlistId : Option String
  nextPageToken : Option String
  exhausted : Bool
  deriving DecidableEq, Repr

/-- The state a missing record entry defaults to:
`channelStates[channelId] ?? \x7b playlistId: null, nextPageToken: null, exhausted: false \x7d`. -/
def freshChannelState : ChannelState :=
  { playlistId := none, nextPageToken := none, exhausted := false }

/-- Result of one `getChannelVideosPage` call (`ChannelVideosPage` in
`src/unnamed/part_005`). -/
structure ChannelVideosPage where
  playlistId : Option String
  videos : List Video
  nextPageToken : Option String
  deriving DecidableEq, Repr

/-- Errors `getChannelVideosPage` can throw: the distinguished
`YouTubeQuotaError` or any generic `Error(msg)`. -/
inductive FetchError where
  | quotaExceeded
  | other (msg : String)
  deriving DecidableEq, Repr

/-- Outcome of an awaited `getChannelVideosPage` call: a resolved page or a
thrown error. -/
inductive FetchOutcome where
  | ok (page : ChannelVideosPage)
  | error (e : FetchError)
  deriving DecidableEq, Repr

/-- Whether an outcome is a thrown error. -/
def FetchOutcome.isError : FetchOutcome → Bool
  | .ok _ => false
  | .error _ => true

/-! ### JavaScript number helpers

`parseInt(s, 10)` returns `NaN` on input with no leading digits; `NaN` is
modelled as `none`. Every JS comparison involving `NaN` is `false`. -/

/-- JS `parseInt(s, 10)`: skip leading whitespace, optional sign, longest digit
run; `NaN` (`none`) when no digits follow. -/
def parseIntJS (s : String) : Option Int :=
  let body : List Char → Option Int := fun cs =>
    match leadingDigits cs with
    | [] => none
    | ds => some (digitsVal ds)
  match s.data.dropWhile (fun c => c.isWhitespace) with
  | '-' :: cs => (body cs).map (fun n => -n)
  | '+' :: cs => body cs
  | cs => body cs

/-- JS `*` on a possibly-NaN left operand. -/
def jsMul (a : Option Int) (k : Int) : Option Int := a.map (· * k)

/-- JS `+` on a possibly-NaN left operand. -/
def jsAdd (a : Option Int) (k : Int) : Option Int := a.map (· + k)

/-- JS `-` on a possibly-NaN left operand. -/
def jsSub (a : Option Int) (k : Int) : Option Int := a.map (· - k)

/-- JS `n <= x` with a `Nat` on the left and a possibly-NaN right operand. -/
def jsLeNum (n : Nat) (x : Option Int) : Bool :=
  match x with
  | none => false
  | some x => (n : Int) ≤ x

/-- JS `x < n` with a possibly-NaN left operand and a `Nat` on the right. -/
def jsLtNum (x : Option Int) (n : Nat) : Bool :=
  match x with
  | none => false
  | some x => x < (n : Int)

/-- The `Array.prototype.slice` index resolution: `NaN` becomes `0`, negative
counts from the end clamped at `0`, positive is clamped at the length. -/
def jsSliceIdx (len : Nat) : Option Int → Nat
  | none => 0
  | some i => if i < 0 then ((len : Int) + i).toNat else min i.toNat len

/-- JS `arr.slice(a, b)` with possibly-NaN bounds. -/
def jsSlice (l : List Video) (a b : Option Int) : List Video :=
  let s := jsSliceIdx l.length a
  let e := jsSliceIdx l.length b
  (l.drop s).take (e - s)

/-! ### Merge, sort and filter (`src/src/app/api/videos/route.ts`) -/

/-- The loop body of `mergeUniqueById`: keep the first occurrence of each id,
`seen` being the ids already emitted. -/
def dedupById (seen : List String) : List Video → List Video
  | [] => []
  | v :: rest =>
    if seen.contains v.id then dedupById seen rest
    else v :: dedupById (v.id :: seen) rest

/-- Function `mergeUniqueById(base, next)` (route.ts lines 35-45): iterate over
`[...base, ...next]` keeping the first occurrence of each `video.id`. -/
def mergeUniqueById (base next : List Video) : List Video :=
  dedupById [] (base ++ next)

/-- The descending-publish-time order used by the comparator
`(a, b) => new Date(b.publishedAt).getTime() - new Date(a.publishedAt).getTime()`. -/
def byPublishedDesc (a b : Video) : Prop := b.publishedAt ≤ a.publishedAt

instance : DecidableRel byPublishedDesc := fun a b =>
  inferInstanceAs (Decidable (b.publishedAt ≤ a.publishedAt))

instance : IsTotal Video byPublishedDesc :=
  ⟨fun a b => le_total b.publishedAt a.publishedAt⟩

instance : IsTrans Video byPublishedDesc :=
  ⟨fun _ _ _ hab hbc => le_trans hbc hab⟩

/-- Here `sortDesc` models `arr.sort` with that comparator. Since ES2019
`Array.prototype.sort` is a stable sort, and a stable sort's output is
determined by the comparator, it is modelled by a stable insertion sort. -/
def sortDesc (l : List Video) : List Video :=
  l.insertionSort byPublishedDesc

/-- One merge-and-sort round of the aggregator:
`mergeUniqueById(allVideos, newVideos).sort(byPublishedAtDesc)`. -/
def roundMerge (buffer newVideos : List Video) : List Video :=
  sortDesc (mergeUniqueById buffer newVideos)

/-- Function `filterByType` (route.ts lines 124-128): `"videos"` keeps long-form,
`"shorts"` keeps short-form, anything else keeps everything. -/
def filterByType (type : String) (videos : List Video) : List Video :=
  if type = "videos" then videos.filter (fun v => !v.isShort)
  else if type = "shorts" then videos.filter (fun v => v.isShort)
  else videos

/-! ### Per-source state map

`Record<string, ChannelState>` is modelled as an association list (the record
may hold keys outside the current channel list; `Object.values` iterates all
entries). -/

/-- The channel-state record. -/
abbrev StateMap : Type := List (String × ChannelState)

/-- Record read with default: `channelStates[c] ?? freshChannelState`. -/
def stateOf : StateMap → String → ChannelState
  | [], _ => freshChannelState
  | p :: rest, c => if p.1 = c then p.2 else stateOf rest c

/-- Record write `m[c] = st` (update in place or append a new key). -/
def setState : StateMap → String → ChannelState → StateMap
  | [], c, st => [(c, st)]
  | (d, old) :: rest, c, st =>
    if d = c then (c, st) :: rest else (d, old) :: setState rest c st

/-- Predicate `hasMoreChannels()` (route.ts lines 133-134):
`Object.values(channelStates).some((state) => !state.exhausted)`. -/
def hasMoreChannels (m : StateMap) : Bool :=
  m.any (fun p => !p.2.exhausted)

/-! ### One fan-out round (`fetchNextPages`, route.ts lines 47-95) -/

/-- Upstream behaviour of one round: what `getChannelVideosPage(channelId,
PAGE_SIZE_PER_CHANNEL, state.nextPageToken, state.playlistId)` resolves or
throws, as a function of the arguments the route passes it. -/
def FetchOracle := String → Option String → Option String → FetchOutcome

/-- What one channel's promise contributes in a round: its next state, the
videos it returned, and whether a `getChannelVideosPage` call was issued. An
exhausted channel returns `\x7b channelId, state, videos: [] \x7d` without
calling; a successful call advances the cursor state and marks `exhausted`
when no next token came back; a thrown error is caught and yields the
unchanged state with zero videos. -/
def channelFetch (fetch : FetchOracle) (states : StateMap) (c : String) :
    ChannelState × List Video × Bool :=
  let st := stateOf states c
  if st.exhausted then (st, [], false)
  else
    match fetch c st.nextPageToken st.playlistId with
    | .ok page =>
      ({ playlistId := page.playlistId
         nextPageToken := page.nextPageToken
         exhausted := page.nextPageToken.isNone }, page.videos, true)
    | .error _ => (st, [], true)

/-- Result of one parallel fan-out round. -/
structure RoundResult where
  states : StateMap
  newVideos : List Video
  called : List String
  deriving DecidableEq, Repr

/-- Function `fetchNextPages(channelStates)`: fan out over all channel ids against the
same snapshot of the state record, then write every result's state back into a
copy of the record and concatenate the returned videos in channel order.
`called` records which channels actually issued an upstream call (ghost data
for the theorems; the route does not compute it). -/
def fetchNextPages (fetch : FetchOracle) (channelIds : List String)
    (states : StateMap) : RoundResult :=
  { states := channelIds.foldl
      (fun acc c => setState acc c (channelFetch fetch states c).1) states
    newVideos := channelIds.flatMap (fun c => (channelFetch fetch states c).2.1)
    called := channelIds.filter (fun c => (channelFetch fetch states c).2.2) }

/-! ### The aggregator `GET` (route.ts lines 12-170) -/

/-- A cache entry as read by `getCachedVideos` (buffer plus per-channel
states; the TTL timestamp is external to the claims). -/
structure CacheEntry where
  videos : List Video
  channelStates : StateMap
  deriving DecidableEq

/-- The JSON body the route returns: the empty-channel-list short-circuit
`\x7b videos: [], hasMore: false, total: 0 \x7d`, or the full
`\x7b videos, hasMore, total, page \x7d` shape. -/
inductive GetResponse where
  | empty
  | feed (videos : List Video) (hasMore : Bool) (total : Nat) (page : Option Int)
  deriving DecidableEq, Repr

/-- Result of one `GET /api/videos` execution: the response together with the
final buffer, final channel states (what `setCachedVideos` leaves behind) and
the trace of fan-out rounds (each entry lists the channels that issued an
upstream call in that round). -/
structure GetOutcome where
  response : GetResponse
  finalVideos : List Video
  finalStates : StateMap
  trace : List (List String)
  deriving DecidableEq

/-- The fill loop (route.ts lines 136-153): while the filtered buffer does not
cover the requested end index, some channel is unexhausted, and fewer than
`MAX_ROUNDS_PER_REQUEST = 3` productive rounds have run, fetch one more round;
a round with zero new videos updates the states and breaks without merging.
`budget` is `MAX_ROUNDS_PER_REQUEST - rounds` and `roundIdx` indexes the
oracle by fan-out round. -/
def fillLoop (fetch : Nat → FetchOracle) (channelIds : List String)
    (type : String) (targetEndIndex : Option Int) :
    Nat → Nat → List Video → StateMap →
    List Video × StateMap × List (List String)
  | 0, _, videos, states => (videos, states, [])
  | budget + 1, roundIdx, videos, states =>
    if jsLeNum (filterByType type videos).length targetEndIndex &&
        hasMoreChannels states then
      let round := fetchNextPages (fetch roundIdx) channelIds states
      if round.newVideos = [] then (videos, round.states, [round.called])
      else
        let next := fillLoop fetch channelIds type targetEndIndex budget
          (roundIdx + 1) (roundMerge videos round.newVideos) round.states
        (next.1, next.2.1, round.called :: next.2.2)
    else (videos, states, [])

/-- Constant `VIDEOS_PER_PAGE` in the aggregator route. -/
def VIDEOS_PER_PAGE : Int := 12

/-- Constant `MAX_ROUNDS_PER_REQUEST`. -/
def MAX_ROUNDS_PER_REQUEST : Nat := 3

/-- The aggregator `GET` handler, from the authorized point on:
`channelIds` are the user's channels, `cached` is what `getCachedVideos`
returned, `pageParam`/`typeParam` are the raw `searchParams` values, and
`fetch` is the upstream behaviour per round. Follows route.ts lines 20-170:
parse `page` with `parseInt(searchParams.get("page") || "1", 10)` (no
validation), default `type` to `"all"`, short-circuit on an empty channel
list, fetch an initial round when the buffer is empty, run the fill loop,
filter, slice, and assemble `\x7b videos, hasMore, total, page \x7d`. -/
def getPageModel (fetch : Nat → FetchOracle) (channelIds : List String)
    (cached : Option CacheEntry) (pageParam typeParam : Option String) :
    GetOutcome :=
  let page := parseIntJS (pageParam.getD "1")
  let type := typeParam.getD "all"
  if channelIds = [] then
    { response := .empty, finalVideos := [], finalStates := [], trace := [] }
  else
    let allVideos0 := match cached with | some e => e.videos | none => []
    let states0 := match cached with
      | some e => e.channelStates
      | none => channelIds.foldl (fun acc c => setState acc c freshChannelState) []
    let afterInit :=
      if allVideos0 = [] then
        let initial := fetchNextPages (fetch 0) channelIds states0
        (roundMerge allVideos0 initial.newVideos, initial.states, [initial.called])
      else (allVideos0, states0, ([] : List (List String)))
    let targetEndIndex := jsMul page VIDEOS_PER_PAGE
    let filled := fillLoop fetch channelIds type targetEndIndex
      MAX_ROUNDS_PER_REQUEST afterInit.2.2.length afterInit.1 afterInit.2.1
    let filtered := filterByType type filled.1
    let startIndex := jsMul (jsSub page 1) VIDEOS_PER_PAGE
    let endIndex := jsAdd startIndex VIDEOS_PER_PAGE
    let paginated := jsSlice filtered startIndex endIndex
    let hasMore := jsLtNum endIndex filtered.length || hasMoreChannels filled.2.1
    { response := .feed paginated hasMore filtered.length page
      finalVideos := filled.1
      finalStates := filled.2.1
      trace := afterInit.2.2 ++ filled.2.2 }

/-! ### The upstream client (`getChannelVideosPage`, `src/unnamed/part_005`)

The three HTTP calls the function makes (channel resolution, playlist items,
batched video details) are parameters: each is either `ok` with its parsed
JSON payload or a failed response with a status and whether the error body's
reason is `quotaExceeded`. -/

/-- An upstream HTTP response: `ok` with parsed body, or non-OK with status
and whether the JSON error body carries `reason === "quotaExceeded"`. -/
inductive ApiResp (α : Type) where
  | ok (data : α)
  | fail (status : Nat) (quotaReason : Bool)
  deriving DecidableEq, Repr

/-- One raw `playlistItems` entry (the fields of `item.snippet` the code
reads). Thumbnails are optional because `high?.url || default?.url` may be
absent. -/
structure RawItem where
  videoId : String
  title : String
  description : String
  thumbHigh : Option String
  thumbDefault : Option String
  channelId : String
  channelTitle : String
  publishedAt : Int
  deriving DecidableEq, Repr

/-- JS `a?.url || b?.url`: a present non-empty string wins, otherwise fall
through. -/
def jsOrOpt (a b : Option String) : Option String :=
  match a with
  | some s => if s = "" then b else some s
  | none => b

/-- First value for a key in an association list (the `durations` record). -/
def lookupStr : List (String × String) → String → Option String
  | [], _ => none
  | p :: rest, k => if p.1 = k then some p.2 else lookupStr rest k

/-- The tail of `getChannelVideosPage` once the uploads playlist id is known:
fetch the playlist page (non-OK throws, with `checkQuotaError` turning a 403
quota body into `YouTubeQuotaError`), then fetch the batched durations — a
non-OK details response is silently ignored, leaving `durations` empty — and
classify each item from `durations[videoId] || ""`. -/
def listPageBody (uploads : String)
    (videosResp : ApiResp (List RawItem × Option String))
    (detailsResp : ApiResp (List (String × String))) :
    Except FetchError ChannelVideosPage :=
  match videosResp with
  | .fail status quotaReason =>
    if status = 403 && quotaReason then .error .quotaExceeded
    else .error (.other "Failed to get channel videos")
  | .ok (items, nextTok) =>
    let videoIds := String.intercalate "," (items.map (fun it => it.videoId))
    let durations : List (String × String) :=
      if videoIds.length > 0 then
        match detailsResp with
        | .ok ds => ds
        | .fail _ _ => []
      else []
    let videos := items.map (fun it =>
      let duration := (lookupStr durations it.videoId).getD ""
      { id := it.videoId
        title := it.title
        thumbnail := jsOrOpt it.thumbHigh it.thumbDefault
        channelId := it.channelId
        channelTitle := it.channelTitle
        publishedAt := it.publishedAt
        duration := duration
        isShort := isShortDuration duration : Video })
    .ok { playlistId := some uploads, videos := videos, nextPageToken := nextTok }

/-- Function `getChannelVideosPage` (part_005 lines 195-290). When the caller supplies
no (or a falsy) playlist id the channel-resolution call runs first: a 403 with
a quota body throws `YouTubeQuotaError`, any other non-OK throws a generic
error, and a body without items returns the empty page; otherwise the supplied
handle is used directly. `channelResp`'s payload is the resolved uploads
playlist id (`none` when `channelData.items` is missing or empty). -/
def getChannelVideosPage (playlistId : Option String)
    (channelResp : ApiResp (Option String))
    (videosResp : ApiResp (List RawItem × Option String))
    (detailsResp : ApiResp (List (String × String))) :
    Except FetchError ChannelVideosPage :=
  if playlistId.getD "" = "" then
    match channelResp with
    | .fail 403 true => .error .quotaExceeded
    | .fail status _ =>
      .error (.other ("Failed to get channel details: " ++ toString status))
    | .ok none => .ok { playlistId := none, videos := [], nextPageToken := none }
    | .ok (some uploads) => listPageBody uploads videosResp detailsResp
  else
    listPageBody (playlistId.getD "") videosResp detailsResp

/-! ### The incremental refresh driver (`src/unnamed/part_002`, `POST`)

Per-channel walk: starting at `pageToken = null`, fetch pages of 50; stop on
an empty page; stage each item until one whose id is in `existingVideoIds`
is reached (`reachedExisting` ends the whole walk); otherwise follow the next
token, a falsy token ending the walk. Staged rows are then persisted with one
`createMany(\x7b data, skipDuplicates: true \x7d)`. -/

/-- The inner `for (const video of page.videos)` loop: stage items until the
first already-known id; the flag reports whether a known id was reached. -/
def stagePage (known : List String) : List Video → List Video × Bool
  | [] => ([], false)
  | v :: rest =>
    if known.contains v.id then ([], true)
    else
      let next := stagePage known rest
      (v :: next.1, next.2)

/-- The `while (!reachedExisting)` page walk. `pages` maps a page token to the
page the upstream returns (successful calls; a thrown call rejects the whole
channel via `Promise.allSettled` and stages nothing). Returns the staged
items in encounter order and the number of pages fetched. `fuel` bounds the
recursion; the walk itself stops on an empty page, a known id, or a falsy
next token. -/
def refreshWalk (pages : Option String → ChannelVideosPage)
    (known : List String) : Nat → Option String → List Video × Nat
  | 0, _ => ([], 0)
  | fuel + 1, tok =>
    let page := pages tok
    if page.videos = [] then ([], 1)
    else
      let staged := stagePage known page.videos
      if staged.2 then (staged.1, 1)
      else if page.nextPageToken.getD "" = "" then (staged.1, 1)
      else
        let rest := refreshWalk pages known fuel page.nextPageToken
        (staged.1 ++ rest.1, 1 + rest.2)

/-- Operation `createMany(\x7b data, skipDuplicates: true \x7d)` on the video ids: each
staged id is appended unless it conflicts with an existing row or an earlier
row of the same batch; duplicates are skipped, never an error. -/
def insertIgnoringDuplicates (store : List String) (ids : List String) :
    List String :=
  ids.foldl (fun acc i => if acc.contains i then acc else acc ++ [i]) store

/-! ### Concrete instances used by counterexamples and witnesses -/

/-- A distinct short video per round index. -/
def mkVid (n : Nat) : Video :=
  { id := String.mk ('v' :: List.replicate n 'x'), title := "t", thumbnail := some "u"
    channelId := "c", channelTitle := "C", publishedAt := (n : Int)
    duration := "PT1M", isShort := true }

/-- An upstream that always succeeds with one fresh video and always returns
a next page token (a source that is never exhausted). -/
def oracleGrow : Nat → FetchOracle := fun r _ _ _ =>
  .ok { playlistId := some "p", videos := [mkVid r], nextPageToken := some "t" }

/-- Every call throws `YouTubeQuotaError`. -/
def oracleQuota : Nat → FetchOracle := fun _ _ _ _ => .error .quotaExceeded

/-- Every call throws a generic network error. -/
def oracleNet : Nat → FetchOracle := fun _ _ _ _ => .error (.other "network")

/-- A cache entry with one buffered video and one unexhausted channel. -/
def cachedOne : CacheEntry :=
  { videos := [mkVid 0], channelStates := [("c", freshChannelState)] }

/-- A cache entry whose channel `"c"` is marked exhausted while `"d"` is not. -/
def cachedExh : CacheEntry :=
  { videos := [mkVid 0]
    channelStates :=
      [("c", { playlistId := some "p", nextPageToken := none, exhausted := true }),
       ("d", freshChannelState)] }

/-- An upstream where channel `"a"` always throws quota and every other
channel succeeds. -/
def oracleAFails : FetchOracle := fun c _ _ =>
  if c = "a" then .error .quotaExceeded
  else .ok { playlistId := some "p", videos := [mkVid 1], nextPageToken := none }

/-- A refresh-driver item with a given id and publish time. -/
def rVid (s : String) (t : Int) : Video :=
  { id := s, title := s, thumbnail := none, channelId := "A", channelTitle := "A"
    publishedAt := t, duration := "", isShort := false }

/-- The spec scenario's upstream for the refresh driver: the first page is
`[new1, new2, known1, known2]` with a next token, and the following page
holds a further (already known) item. -/
def refreshPages : Option String → ChannelVideosPage := fun tok =>
  match tok with
  | none =>
    { playlistId := some "p"
      videos := [rVid "new1" 4, rVid "new2" 3, rVid "known1" 2, rVid "known2" 1]
      nextPageToken := some "t2" }
  | some _ =>
    { playlistId := some "p", videos := [rVid "old" 0], nextPageToken := none }

/-- A concrete raw playlist item for the client model. -/
def rawItem (s : String) : RawItem :=
  { videoId := s, title := s, description := "d", thumbHigh := some "u"
    thumbDefault := some "u2", channelId := "c", channelTitle := "C"
    publishedAt := 1 }

/-! ## Theorems -/

/-! ### Classifier lemmas -/

theorem leadingDigits_append (ds : List Char) (c : Char) (rest : List Char)
    (h : ∀ x ∈ ds, x.isDigit = true) (hc : c.isDigit = false) :
    leadingDigits (ds ++ c :: rest) = ds := by
  induction ds with
  | nil => simp [leadingDigits, hc]
  | cons d tl ih =>
    have hd : d.isDigit = true := h d (List.mem_cons_self d tl)
    simp only [List.cons_append, leadingDigits, hd, if_true, List.append_eq]
    rw [ih (fun x hx => h x (List.mem_cons_of_mem d hx))]

theorem parseComp_exact (marker : Char) (ds rest : List Char)
    (h : ∀ x ∈ ds, x.isDigit = true) (hm : marker.isDigit = false)
    (hne : ds ≠ []) :
    parseComp marker (ds ++ marker :: rest) = (some (digitsVal ds), rest) := by
  simp only [parseComp, leadingDigits_append ds marker rest h hm,
    List.drop_left, hne, ne_eq, not_false_eq_true, true_and, if_pos]

/-- The classifier returns `false` whenever the regex fails to match, i.e.
whenever the input has no occurrence of the substring `PT`. -/
theorem isShortDuration_no_match (d : String) (h : afterPT d.data = none) :
    isShortDuration d = false := by
  unfold isShortDuration
  split
  · rfl
  · rw [h]

/-- C3, counterexample. The claim says the string `"PT"` is classified
`false`; in the code the regex `PT(?:(\d+)H)?(?:(\d+)M)?(?:(\d+)S)?` matches
`"PT"` with every group absent, all components default to `0`, and
`0 <= 180` yields `true`. -/
theorem C3_classifier_counterexample : isShortDuration "PT" = true := by decide

/-- C3, amended. The short-form classifier is a total function (it is a Lean
function, hence never raises); a string with no occurrence of `PT` — in
particular the empty string and garbage — classifies `false`; a fully
specified `PT<h>H<m>M<s>S` duration classifies by total seconds at the
180-second boundary (`PT3M` true, `PT3M1S` false); but the bare string
`"PT"`, which the claim calls unparseable, parses as a zero-second duration
and classifies `true`. -/
theorem C3_classifier_amended :
    (∀ d : String, afterPT d.data = none → isShortDuration d = false) ∧
    (∀ ds1 ds2 ds3 : List Char,
      (∀ c ∈ ds1, c.isDigit = true) → (∀ c ∈ ds2, c.isDigit = true) →
      (∀ c ∈ ds3, c.isDigit = true) → ds1 ≠ [] → ds2 ≠ [] → ds3 ≠ [] →
      isShortDuration
        (String.mk ('P' :: 'T' :: (ds1 ++ 'H' :: (ds2 ++ 'M' :: (ds3 ++ ['S']))))) =
        decide (digitsVal ds1 * 3600 + digitsVal ds2 * 60 + digitsVal ds3 ≤ 180)) ∧
    isShortDuration "PT3M" = true ∧ isShortDuration "PT3M1S" = false ∧
    isShortDuration "" = false ∧ isShortDuration "PT" = true ∧
    isShortDuration "garbage" = false := by
  refine ⟨isShortDuration_no_match, ?_, by decide, by decide, by decide, by decide, by decide⟩
  intro ds1 ds2 ds3 h1 h2 h3 n1 n2 n3
  have hH : ('H' : Char).isDigit = false := by decide
  have hM : ('M' : Char).isDigit = false := by decide
  have hS : ('S' : Char).isDigit = false := by decide
  have hneq : String.mk ('P' :: 'T' :: (ds1 ++ 'H' :: (ds2 ++ 'M' :: (ds3 ++ ['S'])))) ≠ "" := by
    intro hc
    have := congrArg String.data hc
    simp at this
  unfold isShortDuration
  rw [if_neg hneq]
  show (match afterPT ('P' :: 'T' :: (ds1 ++ 'H' :: (ds2 ++ 'M' :: (ds3 ++ ['S'])))) with
    | none => false
    | some rest =>
      let hm := parseComp 'H' rest
      let mm := parseComp 'M' hm.2
      let sm := parseComp 'S' mm.2
      decide (hm.1.getD 0 * 3600 + mm.1.getD 0 * 60 + sm.1.getD 0 ≤ 180)) = _
  rw [show afterPT ('P' :: 'T' :: (ds1 ++ 'H' :: (ds2 ++ 'M' :: (ds3 ++ ['S'])))) =
      some (ds1 ++ 'H' :: (ds2 ++ 'M' :: (ds3 ++ ['S']))) from rfl]
  simp only [parseComp_exact 'H' ds1 _ h1 hH n1, parseComp_exact 'M' ds2 _ h2 hM n2,
    parseComp_exact 'S' ds3 _ h3 hS n3, Option.getD_some]

/-- C3, witness for the amended theorem: both hypothesis-bearing conjuncts
applied at concrete inputs (`"xyz"` has no `PT`; `PT1H2M3S` is 3723 seconds,
not short). -/
theorem C3_classifier_amended_witness :
    isShortDuration "xyz" = false ∧
    isShortDuration
      (String.mk ('P' :: 'T' :: (['1'] ++ 'H' :: (['2'] ++ 'M' :: (['3'] ++ ['S']))))) =
      decide (digitsVal ['1'] * 3600 + digitsVal ['2'] * 60 + digitsVal ['3'] ≤ 180) :=
  ⟨C3_classifier_amended.1 "xyz" (by decide),
   C3_classifier_amended.2.1 ['1'] ['2'] ['3'] (by decide) (by decide) (by decide)
     (by decide) (by decide) (by decide)⟩

/-! ### Merge and sort lemmas -/

theorem mem_ids_dedupById (seen : List String) (l : List Video) (x : String) :
    x ∈ (dedupById seen l).map (fun v => v.id) ↔
      x ∈ l.map (fun v => v.id) ∧ seen.contains x = false := by
  induction l generalizing seen with
  | nil => simp [dedupById]
  | cons v rest ih =>
    by_cases h : seen.contains v.id
    · rw [dedupById, if_pos h, ih]
      simp only [List.map_cons, List.mem_cons]
      constructor
      · rintro ⟨hx, hs⟩
        exact ⟨Or.inr hx, hs⟩
      · rintro ⟨hx | hx, hs⟩
        · rw [hx, h] at hs
          cases hs
        · exact ⟨hx, hs⟩
    · rw [dedupById, if_neg h]
      simp only [List.map_cons, List.mem_cons, ih, List.contains_cons,
        Bool.or_eq_false_iff, beq_eq_false_iff_ne, ne_eq]
      constructor
      · rintro (rfl | ⟨hx, hne, hs⟩)
        · exact ⟨Or.inl rfl, Bool.not_eq_true _ ▸ h⟩
        · exact ⟨Or.inr hx, hs⟩
      · rintro ⟨hx | hx, hs⟩
        · exact Or.inl hx
        · by_cases hxv : x = v.id
          · exact Or.inl hxv
          · exact Or.inr ⟨hx, hxv, hs⟩

theorem nodup_ids_dedupById (seen : List String) (l : List Video) :
    ((dedupById seen l).map (fun v => v.id)).Nodup := by
  induction l generalizing seen with
  | nil => simp [dedupById]
  | cons v rest ih =>
    by_cases h : seen.contains v.id
    · rw [dedupById, if_pos h]
      exact ih seen
    · rw [dedupById, if_neg h]
      simp only [List.map_cons, List.nodup_cons]
      refine ⟨fun hmem => ?_, ih _⟩
      have h2 := (mem_ids_dedupById _ _ _).mp hmem |>.2
      rw [List.contains_cons] at h2
      simp at h2

theorem dedupById_eq_self (seen : List String) (l : List Video)
    (h1 : (l.map (fun v => v.id)).Nodup)
    (h2 : ∀ v ∈ l, seen.contains v.id = false) : dedupById seen l = l := by
  induction l generalizing seen with
  | nil => rfl
  | cons v rest ih =>
    rw [dedupById, if_neg (by rw [h2 v (List.mem_cons_self v rest)]; simp)]
    congr 1
    simp only [List.map_cons, List.nodup_cons] at h1
    refine ih (v.id :: seen) h1.2 (fun w hw => ?_)
    rw [List.contains_cons, Bool.or_eq_false_iff]
    refine ⟨beq_eq_false_iff_ne.mpr (fun he => h1.1 ?_), h2 w (List.mem_cons_of_mem v hw)⟩
    rw [← he]
    exact List.mem_map_of_mem (fun v => v.id) hw

theorem dedupById_append_drop (seen : List String) (l1 l2 : List Video)
    (h : ∀ v ∈ l2, v.id ∈ (dedupById seen l1).map (fun v => v.id) ∨
      seen.contains v.id = true) :
    dedupById seen (l1 ++ l2) = dedupById seen l1 := by
  induction l1 generalizing seen with
  | nil =>
    simp only [List.nil_append, dedupById]
    induction l2 with
    | nil => rfl
    | cons w rest ih2 =>
      have hw := h w (List.mem_cons_self w rest)
      simp only [dedupById, List.map_nil, List.not_mem_nil, false_or] at hw ⊢
      rw [if_pos hw]
      exact ih2 (fun v hv => h v (List.mem_cons_of_mem w hv))
  | cons v rest ih =>
    by_cases hv : seen.contains v.id
    · rw [List.cons_append, dedupById, if_pos hv, dedupById, if_pos hv]
      refine ih seen (fun w hw => ?_)
      have := h w hw
      rwa [dedupById, if_pos hv] at this
    · rw [List.cons_append, dedupById, if_neg hv, dedupById, if_neg hv]
      congr 1
      refine ih (v.id :: seen) (fun w hw => ?_)
      have hmem := h w hw
      rw [dedupById, if_neg hv] at hmem
      simp only [List.map_cons, List.mem_cons] at hmem
      rcases hmem with (hx | hx) | hx
      · right
        rw [List.contains_cons, hx]
        simp
      · exact Or.inl hx
      · right
        rw [List.contains_cons, hx]
        simp

theorem sortDesc_perm (l : List Video) : (sortDesc l).Perm l :=
  List.perm_insertionSort byPublishedDesc l

theorem sortDesc_pairwise (l : List Video) :
    (sortDesc l).Pairwise (fun a b => b.publishedAt ≤ a.publishedAt) :=
  List.sorted_insertionSort byPublishedDesc l

theorem sortDesc_of_pairwise (l : List Video)
    (h : l.Pairwise (fun a b => b.publishedAt ≤ a.publishedAt)) :
    sortDesc l = l :=
  List.Sorted.insertionSort_eq h

/-- C4. After every merge-and-sort round the buffer has pairwise-distinct
item ids and is ordered non-increasing by publish timestamp, and merging the
same page into the result of a round is a no-op: the buffer is returned
unchanged, so nothing is duplicated and nothing is reordered. -/
theorem C4_merge_invariants :
    ∀ buffer page : List Video,
      ((roundMerge buffer page).map (fun v => v.id)).Nodup ∧
      (roundMerge buffer page).Pairwise (fun a b => b.publishedAt ≤ a.publishedAt) ∧
      roundMerge (roundMerge buffer page) page = roundMerge buffer page := by
  intro buffer page
  have hperm : (roundMerge buffer page).Perm (mergeUniqueById buffer page) :=
    sortDesc_perm _
  have hids : ((roundMerge buffer page).map (fun v => v.id)).Perm
      ((mergeUniqueById buffer page).map (fun v => v.id)) := hperm.map _
  have hnodup : ((roundMerge buffer page).map (fun v => v.id)).Nodup :=
    hids.nodup_iff.mpr (nodup_ids_dedupById [] _)
  refine ⟨hnodup, sortDesc_pairwise _, ?_⟩
  have hself : dedupById [] (roundMerge buffer page) = roundMerge buffer page :=
    dedupById_eq_self [] _ hnodup (fun v _ => rfl)
  have hdrop : dedupById [] (roundMerge buffer page ++ page) =
      dedupById [] (roundMerge buffer page) := by
    refine dedupById_append_drop [] _ page (fun v hv => Or.inl ?_)
    rw [hself, hids.mem_iff, mergeUniqueById, mem_ids_dedupById]
    refine ⟨List.mem_map_of_mem (fun v => v.id) (List.mem_append_right buffer hv), rfl⟩
  show sortDesc (mergeUniqueById (roundMerge buffer page) page) = roundMerge buffer page
  rw [mergeUniqueById, hdrop, hself]
  exact sortDesc_of_pairwise _ (sortDesc_pairwise _)

/-! ### State-record and fan-out lemmas -/

theorem stateOf_setState (m : StateMap) (c d : String) (st : ChannelState) :
    stateOf (setState m c st) d = if c = d then st else stateOf m d := by
  induction m with
  | nil => simp [setState, stateOf]
  | cons p rest ih =>
    obtain ⟨a, old⟩ := p
    by_cases h : a = c
    · subst h
      rw [setState, if_pos rfl]
      by_cases h2 : a = d
      · subst h2
        simp [stateOf]
      · simp [stateOf, h2]
    · rw [setState, if_neg h]
      by_cases h2 : a = d
      · subst h2
        have : ¬(c = a) := fun hc => h hc.symm
        simp [stateOf, this]
      · simp [stateOf, h2, ih]

theorem stateOf_foldl_setState (g : String → ChannelState) (cids : List String)
    (acc : StateMap) (c : String) :
    stateOf (cids.foldl (fun a d => setState a d (g d)) acc) c =
      if c ∈ cids then g c else stateOf acc c := by
  induction cids generalizing acc with
  | nil => simp
  | cons d rest ih =>
    rw [List.foldl_cons, ih, stateOf_setState]
    by_cases h1 : c ∈ rest
    · simp [h1, List.mem_cons]
    · by_cases h2 : d = c
      · simp [h1, h2, List.mem_cons]
      · have : ¬(c = d) := fun hc => h2 hc.symm
        simp [h1, h2, this, List.mem_cons]

theorem fetchNextPages_stateOf (f : FetchOracle) (cids : List String)
    (states : StateMap) (c : String) :
    stateOf (fetchNextPages f cids states).states c =
      if c ∈ cids then (channelFetch f states c).1 else stateOf states c :=
  stateOf_foldl_setState (fun d => (channelFetch f states d).1) cids states c

theorem channelFetch_exhausted (f : FetchOracle) (states : StateMap) (c : String)
    (h : (stateOf states c).exhausted = true) :
    channelFetch f states c = (stateOf states c, [], false) := by
  simp [channelFetch, h]

theorem channelFetch_error (f : FetchOracle) (states : StateMap) (c : String)
    (e : FetchError) (h1 : (stateOf states c).exhausted = false)
    (h2 : f c (stateOf states c).nextPageToken (stateOf states c).playlistId =
      .error e) :
    channelFetch f states c = (stateOf states c, [], true) := by
  simp [channelFetch, h1, h2]

theorem mem_called_iff (f : FetchOracle) (cids : List String) (states : StateMap)
    (c : String) :
    c ∈ (fetchNextPages f cids states).called ↔
      c ∈ cids ∧ (channelFetch f states c).2.2 = true := by
  simp [fetchNextPages, List.mem_filter]

theorem fetchNextPages_exhausted_preserved (f : FetchOracle) (cids : List String)
    (states : StateMap) (c : String) (h : (stateOf states c).exhausted = true) :
    stateOf (fetchNextPages f cids states).states c = stateOf states c := by
  rw [fetchNextPages_stateOf]
  split
  · rw [channelFetch_exhausted f states c h]
  · rfl

theorem fetchNextPages_exhausted_not_called (f : FetchOracle) (cids : List String)
    (states : StateMap) (c : String) (h : (stateOf states c).exhausted = true) :
    c ∉ (fetchNextPages f cids states).called := by
  rw [mem_called_iff]
  rintro ⟨-, hcall⟩
  rw [channelFetch_exhausted f states c h] at hcall
  cases hcall

/-! ### Fill-loop lemmas -/

theorem fillLoop_trace_length (f : Nat → FetchOracle) (cids : List String)
    (ty : String) (te : Option Int) (budget i : Nat) (videos : List Video)
    (states : StateMap) :
    (fillLoop f cids ty te budget i videos states).2.2.length ≤ budget := by
  induction budget generalizing i videos states with
  | zero => simp [fillLoop]
  | succ b ih =>
    simp only [fillLoop]
    split
    · split
      · simp
      · simpa using Nat.succ_le_succ (ih _ _ _)
    · simp

theorem fillLoop_exhausted (f : Nat → FetchOracle) (cids : List String)
    (ty : String) (te : Option Int) (budget i : Nat) (videos : List Video)
    (states : StateMap) (c : String)
    (h : (stateOf states c).exhausted = true) :
    (stateOf (fillLoop f cids ty te budget i videos states).2.1 c).exhausted = true ∧
    ∀ r ∈ (fillLoop f cids ty te budget i videos states).2.2, c ∉ r := by
  induction budget generalizing i videos states with
  | zero => exact ⟨h, by simp [fillLoop]⟩
  | succ b ih =>
    simp only [fillLoop]
    split
    · split
      · refine ⟨?_, ?_⟩
        · show (stateOf (fetchNextPages (f i) cids states).states c).exhausted = true
          rw [fetchNextPages_exhausted_preserved (f i) cids states c h]
          exact h
        · intro r hr
          simp only [List.mem_singleton] at hr
          subst hr
          exact fetchNextPages_exhausted_not_called (f i) cids states c h
      · have hpres : (stateOf (fetchNextPages (f i) cids states).states c).exhausted
            = true := by
          rw [fetchNextPages_exhausted_preserved (f i) cids states c h]
          exact h
        have ihx := ih (i + 1)
          (roundMerge videos (fetchNextPages (f i) cids states).newVideos)
          (fetchNextPages (f i) cids states).states hpres
        refine ⟨ihx.1, ?_⟩
        intro r hr
        simp only [List.mem_cons] at hr
        rcases hr with rfl | hr
        · exact fetchNextPages_exhausted_not_called (f i) cids states c h
        · exact ihx.2 r hr
    · exact ⟨h, by simp⟩

/-- C6. If one source's `getChannelVideosPage` throws during a fan-out round
(whatever the error, `QuotaExceeded` included), `fetchNextPages` leaves that
source's cursor/exhausted state exactly as it was before the round, and the
round's merged new-video list is the concatenation of the per-source
contributions in which the failing source contributes the empty list — the
sibling sources' items are untouched. -/
theorem C6_failure_isolation :
    ∀ (f : FetchOracle) (cids : List String) (states : StateMap) (c : String)
      (e : FetchError),
      (stateOf states c).exhausted = false →
      f c (stateOf states c).nextPageToken (stateOf states c).playlistId =
        .error e →
      stateOf (fetchNextPages f cids states).states c = stateOf states c ∧
      (fetchNextPages f cids states).newVideos =
        cids.flatMap (fun d => if d = c then [] else (channelFetch f states d).2.1) := by
  intro f cids states c e h1 h2
  have hc := channelFetch_error f states c e h1 h2
  refine ⟨?_, ?_⟩
  · rw [fetchNextPages_stateOf]
    split
    · rw [hc]
    · rfl
  · show cids.flatMap (fun d => (channelFetch f states d).2.1) = _
    congr 1
    funext d
    by_cases hd : d = c
    · subst hd
      rw [hc]
      simp
    · simp [hd]

/-- C6, witness: channel `"a"` quota-fails while `"b"` succeeds, starting
from an empty state record. -/
theorem C6_failure_isolation_witness :
    stateOf (fetchNextPages oracleAFails ["a", "b"] []).states "a" =
      stateOf [] "a" ∧
    (fetchNextPages oracleAFails ["a", "b"] []).newVideos =
      ["a", "b"].flatMap
        (fun d => if d = "a" then [] else (channelFetch oracleAFails [] d).2.1) :=
  C6_failure_isolation oracleAFails ["a", "b"] [] "a" .quotaExceeded
    (by decide) (by decide)

/-- C7. Against one cache entry, a source whose cached state is marked
exhausted is never issued another `getChannelVideosPage` call during a
request (it appears in no fan-out round of the trace), and it is still marked
exhausted in the states the request writes back — so the property persists
for the cache entry's whole lifetime. -/
theorem C7_exhausted_never_queried :
    ∀ (f : Nat → FetchOracle) (cids : List String) (e : CacheEntry)
      (pp tp : Option String) (c : String),
      cids ≠ [] →
      (stateOf e.channelStates c).exhausted = true →
      (∀ r ∈ (getPageModel f cids (some e) pp tp).trace, c ∉ r) ∧
      (stateOf (getPageModel f cids (some e) pp tp).finalStates c).exhausted = true := by
  intro f cids e pp tp c h0 h
  simp only [getPageModel, if_neg h0]
  by_cases hv : e.videos = []
  · rw [if_pos hv]
    have hpres : (stateOf (fetchNextPages (f 0) cids e.channelStates).states c).exhausted
        = true := by
      rw [fetchNextPages_exhausted_preserved (f 0) cids e.channelStates c h]
      exact h
    have hfill := fillLoop_exhausted f cids (tp.getD "all")
      (jsMul (parseIntJS (pp.getD "1")) VIDEOS_PER_PAGE) MAX_ROUNDS_PER_REQUEST
      [(fetchNextPages (f 0) cids e.channelStates).called].length
      (roundMerge e.videos (fetchNextPages (f 0) cids e.channelStates).newVideos)
      (fetchNextPages (f 0) cids e.channelStates).states c hpres
    refine ⟨?_, hfill.1⟩
    intro r hr
    simp only [List.mem_append, List.mem_singleton] at hr
    rcases hr with rfl | hr
    · exact fetchNextPages_exhausted_not_called (f 0) cids e.channelStates c h
    · exact hfill.2 r hr
  · rw [if_neg hv]
    have hfill := fillLoop_exhausted f cids (tp.getD "all")
      (jsMul (parseIntJS (pp.getD "1")) VIDEOS_PER_PAGE) MAX_ROUNDS_PER_REQUEST
      ([] : List (List String)).length e.videos e.channelStates c h
    refine ⟨?_, hfill.1⟩
    intro r hr
    simp only [List.nil_append] at hr
    exact hfill.2 r hr

/-- C7, witness: a cache entry where `"c"` is exhausted and `"d"` is not;
`"c"` appears in no round and stays exhausted. -/
theorem C7_exhausted_never_queried_witness :
    (∀ r ∈ (getPageModel oracleGrow ["c", "d"] (some cachedExh) none none).trace,
      "c" ∉ r) ∧
    (stateOf (getPageModel oracleGrow ["c", "d"] (some cachedExh) none none).finalStates
      "c").exhausted = true :=
  C7_exhausted_never_queried oracleGrow ["c", "d"] cachedExh none none "c"
    (by decide) (by decide)

/-- C1, counterexample. With an empty cache and a single source that always
returns a fresh item and a next cursor, one `GET /api/videos` request issues
four fan-out rounds, each containing a `getChannelVideosPage` call: the
initial buffer-filling fetch plus the three fill-loop rounds. This exceeds
the claimed bound of 3 rounds per call. -/
theorem C1_roundCap_counterexample :
    (getPageModel oracleGrow ["c"] none none none).trace =
      [["c"], ["c"], ["c"], ["c"]] := by decide

theorem trace_append_le (pre fill : List (List String))
    (h1 : pre.length ≤ 1) (h2 : fill.length ≤ 3) : (pre ++ fill).length ≤ 4 := by
  rw [List.length_append]
  omega

/-- C1, amended. One `getPage` request issues at most 4 fan-out rounds: at
most one initial round when the buffer starts empty, plus at most
`MAX_ROUNDS_PER_REQUEST = 3` fill-loop rounds. -/
theorem C1_roundCap_amended :
    ∀ (f : Nat → FetchOracle) (cids : List String) (cached : Option CacheEntry)
      (pp tp : Option String),
      (getPageModel f cids cached pp tp).trace.length ≤ 4 := by
  intro f cids cached pp tp
  by_cases h0 : cids = []
  · simp [getPageModel, h0]
  · simp only [getPageModel, if_neg h0]
    refine trace_append_le _ _ ?_ ?_
    · split <;> simp
    · exact fillLoop_trace_length _ _ _ _ _ _ _ _
/-! ### Response shape -/

theorem getPage_response_eq (f : Nat → FetchOracle) (cids : List String)
    (cached : Option CacheEntry) (pp tp : Option String) (h : cids ≠ []) :
    (getPageModel f cids cached pp tp).response =
      .feed
        (jsSlice
          (filterByType (tp.getD "all") (getPageModel f cids cached pp tp).finalVideos)
          (jsMul (jsSub (parseIntJS (pp.getD "1")) 1) VIDEOS_PER_PAGE)
          (jsAdd (jsMul (jsSub (parseIntJS (pp.getD "1")) 1) VIDEOS_PER_PAGE)
            VIDEOS_PER_PAGE))
        (jsLtNum
            (jsAdd (jsMul (jsSub (parseIntJS (pp.getD "1")) 1) VIDEOS_PER_PAGE)
              VIDEOS_PER_PAGE)
            (filterByType (tp.getD "all")
              (getPageModel f cids cached pp tp).finalVideos).length ||
          hasMoreChannels (getPageModel f cids cached pp tp).finalStates)
        (filterByType (tp.getD "all")
          (getPageModel f cids cached pp tp).finalVideos).length
        (parseIntJS (pp.getD "1")) := by
  simp only [getPageModel, if_neg h]

/-- C5. For every `getPage` response on the non-degenerate path (a non-empty
source list), the response is exactly `\x7b videos, hasMore, total, page \x7d`
where `videos` is the requested slice of the type-filtered final buffer,
`hasMore` is true iff the slice's end index is strictly below the filtered
buffer length or some source is still unexhausted, and `total` is the
filtered buffer length as currently known. -/
theorem C5_hasMore_total :
    ∀ (f : Nat → FetchOracle) (cids : List String) (cached : Option CacheEntry)
      (pp tp : Option String), cids ≠ [] →
      (getPageModel f cids cached pp tp).response =
        .feed
          (jsSlice
            (filterByType (tp.getD "all") (getPageModel f cids cached pp tp).finalVideos)
            (jsMul (jsSub (parseIntJS (pp.getD "1")) 1) VIDEOS_PER_PAGE)
            (jsAdd (jsMul (jsSub (parseIntJS (pp.getD "1")) 1) VIDEOS_PER_PAGE)
              VIDEOS_PER_PAGE))
          (jsLtNum
              (jsAdd (jsMul (jsSub (parseIntJS (pp.getD "1")) 1) VIDEOS_PER_PAGE)
                VIDEOS_PER_PAGE)
              (filterByType (tp.getD "all")
                (getPageModel f cids cached pp tp).finalVideos).length ||
            hasMoreChannels (getPageModel f cids cached pp tp).finalStates)
          (filterByType (tp.getD "all")
            (getPageModel f cids cached pp tp).finalVideos).length
          (parseIntJS (pp.getD "1")) :=
  fun f cids cached pp tp h => getPage_response_eq f cids cached pp tp h

/-- C5, witness at a concrete request (one channel, defaults for both
parameters). -/
theorem C5_hasMore_total_witness :
    (getPageModel oracleGrow ["c"] none none none).response =
      .feed
        (jsSlice
          (filterByType "all" (getPageModel oracleGrow ["c"] none none none).finalVideos)
          (jsMul (jsSub (parseIntJS "1") 1) VIDEOS_PER_PAGE)
          (jsAdd (jsMul (jsSub (parseIntJS "1") 1) VIDEOS_PER_PAGE) VIDEOS_PER_PAGE))
        (jsLtNum
            (jsAdd (jsMul (jsSub (parseIntJS "1") 1) VIDEOS_PER_PAGE) VIDEOS_PER_PAGE)
            (filterByType "all"
              (getPageModel oracleGrow ["c"] none none none).finalVideos).length ||
          hasMoreChannels (getPageModel oracleGrow ["c"] none none none).finalStates)
        (filterByType "all"
          (getPageModel oracleGrow ["c"] none none none).finalVideos).length
        (parseIntJS "1") :=
  C5_hasMore_total oracleGrow ["c"] none none none (by decide)

/-! ### All-sources-failing lemmas -/

theorem channelFetch_all_error (f : FetchOracle)
    (hf : ∀ c t p, (f c t p).isError = true) (states : StateMap) (c : String) :
    channelFetch f states c = (stateOf states c, [], !(stateOf states c).exhausted) := by
  unfold channelFetch
  by_cases he : (stateOf states c).exhausted
  · simp [he]
  · simp only [Bool.not_eq_true] at he
    cases hcall : f c (stateOf states c).nextPageToken (stateOf states c).playlistId with
    | ok page =>
      have := hf c (stateOf states c).nextPageToken (stateOf states c).playlistId
      rw [hcall] at this
      cases this
    | error e => simp [he, hcall]

theorem fetchNextPages_all_error_eq (f g : FetchOracle)
    (hf : ∀ c t p, (f c t p).isError = true)
    (hg : ∀ c t p, (g c t p).isError = true)
    (cids : List String) (states : StateMap) :
    fetchNextPages f cids states = fetchNextPages g cids states := by
  have hcf : channelFetch f states = channelFetch g states :=
    funext fun c => by
      rw [channelFetch_all_error f hf states c, channelFetch_all_error g hg states c]
  simp [fetchNextPages, hcf]

theorem fetchNextPages_all_error_newVideos (f : FetchOracle)
    (hf : ∀ c t p, (f c t p).isError = true)
    (cids : List String) (states : StateMap) :
    (fetchNextPages f cids states).newVideos = [] := by
  have h : ∀ c, (channelFetch f states c).2.1 = [] := fun c => by
    rw [channelFetch_all_error f hf states c]
  simp [fetchNextPages, h]

theorem fillLoop_all_error_videos (f : Nat → FetchOracle)
    (hf : ∀ r c t p, (f r c t p).isError = true) (cids : List String)
    (ty : String) (te : Option Int) :
    ∀ (budget i : Nat) (videos : List Video) (states : StateMap),
      (fillLoop f cids ty te budget i videos states).1 = videos := by
  intro budget
  induction budget with
  | zero => intro i videos states; rfl
  | succ b ih =>
    intro i videos states
    simp only [fillLoop]
    split
    · rw [fetchNextPages_all_error_newVideos (f i) (hf i) cids states]
      simp
    · rfl

theorem fillLoop_all_error_eq (f g : Nat → FetchOracle)
    (hf : ∀ r c t p, (f r c t p).isError = true)
    (hg : ∀ r c t p, (g r c t p).isError = true)
    (cids : List String) (ty : String) (te : Option Int) :
    ∀ (budget i : Nat) (videos : List Video) (states : StateMap),
      fillLoop f cids ty te budget i videos states =
        fillLoop g cids ty te budget i videos states := by
  intro budget
  induction budget with
  | zero => intro i videos states; rfl
  | succ b ih =>
    intro i videos states
    simp only [fillLoop]
    rw [fetchNextPages_all_error_eq (f i) (g i) (hf i) (hg i) cids states]
    split
    · split
      · rfl
      · rw [ih]
    · rfl

theorem getPage_all_error_eq (f g : Nat → FetchOracle)
    (hf : ∀ r c t p, (f r c t p).isError = true)
    (hg : ∀ r c t p, (g r c t p).isError = true)
    (cids : List String) (cached : Option CacheEntry) (pp tp : Option String) :
    getPageModel f cids cached pp tp = getPageModel g cids cached pp tp := by
  by_cases h0 : cids = []
  · simp [getPageModel, h0]
  · simp only [getPageModel, if_neg h0]
    rw [fetchNextPages_all_error_eq (f 0) (g 0) (hf 0) (hg 0),
      fillLoop_all_error_eq f g hf hg]

theorem getPage_all_error_finalVideos (f : Nat → FetchOracle)
    (hf : ∀ r c t p, (f r c t p).isError = true)
    (cids : List String) (e : CacheEntry) (pp tp : Option String)
    (h0 : cids ≠ []) :
    (getPageModel f cids (some e) pp tp).finalVideos = e.videos := by
  simp only [getPageModel, if_neg h0]
  by_cases hv : e.videos = []
  · rw [if_pos hv]
    show (fillLoop f cids _ _ _ _ _ _).1 = e.videos
    rw [fillLoop_all_error_videos f hf,
      fetchNextPages_all_error_newVideos (f 0) (hf 0), hv]
    rfl
  · rw [if_neg hv]
    exact fillLoop_all_error_videos f hf cids _ _ _ _ e.videos e.channelStates

/-- C2, counterexample. When every source throws `QuotaExceeded`, the
aggregator's whole outcome — response included — is identical to the outcome
when every source throws a generic network error: the
`\x7b videos, hasMore, total, page \x7d` body carries no quota-exceeded flag
and no other distinguishable indicator, so the claimed distinguishable
condition does not exist. (The buffered video is still returned, so the
non-throwing half of the claim is what survives into the amendment.) -/
theorem C2_quotaFlag_counterexample :
    getPageModel oracleQuota ["c"] (some cachedOne) none none =
      getPageModel oracleNet ["c"] (some cachedOne) none none ∧
    (getPageModel oracleQuota ["c"] (some cachedOne) none none).response =
      .feed [mkVid 0] true 1 (some 1) := by
  exact ⟨by decide, by decide⟩

/-- C2, amended. When every source fails during a `getPage` request
(`QuotaExceeded` included), the aggregator does not throw past its boundary:
the buffer is exactly the cached buffer and the response returns its
requested slice with the usual `hasMore`/`total`/`page` fields. However the
response carries no quota-exceeded indicator: the outcome is identical for
any two all-failing upstreams, quota or not. -/
theorem C2_quotaFlag_amended :
    ∀ (f g : Nat → FetchOracle) (cids : List String) (e : CacheEntry)
      (pp tp : Option String),
      cids ≠ [] →
      (∀ r c t p, (f r c t p).isError = true) →
      (∀ r c t p, (g r c t p).isError = true) →
      getPageModel f cids (some e) pp tp = getPageModel g cids (some e) pp tp ∧
      (getPageModel f cids (some e) pp tp).finalVideos = e.videos ∧
      (getPageModel f cids (some e) pp tp).response =
        .feed
          (jsSlice (filterByType (tp.getD "all") e.videos)
            (jsMul (jsSub (parseIntJS (pp.getD "1")) 1) VIDEOS_PER_PAGE)
            (jsAdd (jsMul (jsSub (parseIntJS (pp.getD "1")) 1) VIDEOS_PER_PAGE)
              VIDEOS_PER_PAGE))
          (jsLtNum
              (jsAdd (jsMul (jsSub (parseIntJS (pp.getD "1")) 1) VIDEOS_PER_PAGE)
                VIDEOS_PER_PAGE)
              (filterByType (tp.getD "all") e.videos).length ||
            hasMoreChannels (getPageModel f cids (some e) pp tp).finalStates)
          (filterByType (tp.getD "all") e.videos).length
          (parseIntJS (pp.getD "1")) := by
  intro f g cids e pp tp h0 hf hg
  have hv := getPage_all_error_finalVideos f hf cids e pp tp h0
  refine ⟨getPage_all_error_eq f g hf hg cids (some e) pp tp, hv, ?_⟩
  have hr := getPage_response_eq f cids (some e) pp tp h0
  rw [hv] at hr
  exact hr

/-- C2, witness for the amended theorem: all-quota vs all-network failures
over a one-video cached buffer. -/
theorem C2_quotaFlag_amended_witness :
    getPageModel oracleQuota ["c"] (some cachedOne) none none =
      getPageModel oracleNet ["c"] (some cachedOne) none none ∧
    (getPageModel oracleQuota ["c"] (some cachedOne) none none).finalVideos =
      cachedOne.videos ∧
    (getPageModel oracleQuota ["c"] (some cachedOne) none none).response =
      .feed
        (jsSlice (filterByType "all" cachedOne.videos)
          (jsMul (jsSub (parseIntJS "1") 1) VIDEOS_PER_PAGE)
          (jsAdd (jsMul (jsSub (parseIntJS "1") 1) VIDEOS_PER_PAGE) VIDEOS_PER_PAGE))
        (jsLtNum
            (jsAdd (jsMul (jsSub (parseIntJS "1") 1) VIDEOS_PER_PAGE) VIDEOS_PER_PAGE)
            (filterByType "all" cachedOne.videos).length ||
          hasMoreChannels
            (getPageModel oracleQuota ["c"] (some cachedOne) none none).finalStates)
        (filterByType "all" cachedOne.videos).length
        (parseIntJS "1") :=
  C2_quotaFlag_amended oracleQuota oracleNet ["c"] cachedOne none none
    (by decide) (fun _ _ _ _ => rfl) (fun _ _ _ _ => rfl)

/-! ### Parameter handling -/

theorem filterByType_default (ty : String) (h1 : ty ≠ "videos")
    (h2 : ty ≠ "shorts") (l : List Video) : filterByType ty l = l := by
  simp [filterByType, h1, h2]

theorem fillLoop_type_congr (f : Nat → FetchOracle) (cids : List String)
    (ty1 ty2 : String) (te : Option Int)
    (h : ∀ l, filterByType ty1 l = filterByType ty2 l) :
    ∀ (budget i : Nat) (videos : List Video) (states : StateMap),
      fillLoop f cids ty1 te budget i videos states =
        fillLoop f cids ty2 te budget i videos states := by
  intro budget
  induction budget with
  | zero => intro i videos states; rfl
  | succ b ih =>
    intro i videos states
    simp only [fillLoop]
    rw [h videos]
    split
    · split
      · rfl
      · rw [ih]
    · rfl

theorem getPage_type_congr (f : Nat → FetchOracle) (cids : List String)
    (cached : Option CacheEntry) (pp : Option String) (s : String)
    (h1 : s ≠ "videos") (h2 : s ≠ "shorts") :
    getPageModel f cids cached pp (some s) = getPageModel f cids cached pp none := by
  by_cases h0 : cids = []
  · simp [getPageModel, h0]
  · have hfl : ∀ l, filterByType s l = filterByType "all" l := fun l => by
      rw [filterByType_default s h1 h2 l,
        filterByType_default "all" (by decide) (by decide) l]
    simp only [getPageModel, if_neg h0, Option.getD_some, Option.getD_none]
    rw [fillLoop_type_congr f cids s "all" _ hfl]
    simp only [hfl]

theorem jsSlice_nan (l : List Video) : jsSlice l none none = [] := by
  simp [jsSlice, jsSliceIdx]

/-- C9, counterexample. With `page=abc` (parsed to `NaN`) and `type=garbage`
— both malformed in the claim's sense — the request is not rejected: an
upstream `getChannelVideosPage` call is still issued (the trace holds a
fan-out round) and a normal `\x7b videos, hasMore, total, page \x7d` response
is returned, with an empty slice and `page: NaN`. -/
theorem C9_validation_counterexample :
    (getPageModel oracleGrow ["c"] none (some "abc") (some "garbage")).trace =
      [["c"]] ∧
    (getPageModel oracleGrow ["c"] none (some "abc") (some "garbage")).response =
      .feed [] true 1 none := by
  exact ⟨by decide, by decide⟩

/-- C9, amended. Malformed `page`/`type` parameters are not rejected and do
not prevent upstream calls: whenever the source list is non-empty the route
answers with the normal feed shape; a non-numeric page (`parseInt` = `NaN`)
yields an empty item slice with `page` echoed as `NaN`; and an unknown
`type` value is treated exactly as `"all"`. -/
theorem C9_validation_amended :
    ∀ (f : Nat → FetchOracle) (cids : List String) (cached : Option CacheEntry)
      (pp tp : Option String),
      cids ≠ [] →
      (∃ vs hm t pg,
        (getPageModel f cids cached pp tp).response = .feed vs hm t pg) ∧
      (parseIntJS (pp.getD "1") = none →
        ∃ hm t, (getPageModel f cids cached pp tp).response = .feed [] hm t none) ∧
      (∀ s : String, s ≠ "videos" → s ≠ "shorts" →
        getPageModel f cids cached pp (some s) = getPageModel f cids cached pp none) := by
  intro f cids cached pp tp h0
  have hr := getPage_response_eq f cids cached pp tp h0
  refine ⟨⟨_, _, _, _, hr⟩, ?_, fun s h1 h2 => getPage_type_congr f cids cached pp s h1 h2⟩
  intro hnan
  rw [hnan] at hr
  simp only [jsSub, jsMul, jsAdd, Option.map_none'] at hr
  rw [jsSlice_nan] at hr
  exact ⟨_, _, hr⟩

/-- C9, witness for the amended theorem at the malformed concrete request
`page=abc`, `type=garbage`. -/
theorem C9_validation_amended_witness :
    (∃ vs hm t pg,
      (getPageModel oracleGrow ["c"] none (some "abc") (some "garbage")).response =
        .feed vs hm t pg) ∧
    (parseIntJS ((some "abc").getD "1") = none →
      ∃ hm t,
        (getPageModel oracleGrow ["c"] none (some "abc") (some "garbage")).response =
          .feed [] hm t none) ∧
    (∀ s : String, s ≠ "videos" → s ≠ "shorts" →
      getPageModel oracleGrow ["c"] none (some "abc") (some s) =
        getPageModel oracleGrow ["c"] none (some "abc") none) :=
  C9_validation_amended oracleGrow ["c"] none (some "abc") (some "garbage") (by decide)

/-! ### Refresh-driver lemmas -/

theorem stagePage_spec (known : List String) (vs : List Video) :
    (stagePage known vs).1 = vs.takeWhile (fun v => !known.contains v.id) ∧
    (stagePage known vs).2 = vs.any (fun v => known.contains v.id) := by
  induction vs with
  | nil => exact ⟨rfl, rfl⟩
  | cons v rest ih =>
    by_cases h : v.id ∈ known
    · simp [stagePage, List.takeWhile_cons, List.any_cons, h]
    · simp [stagePage, List.takeWhile_cons, List.any_cons, h, ih.1, ih.2]

theorem stagePage_all_prop (known : List String) (vs : List Video) :
    ∀ x ∈ (stagePage known vs).1, x.id ∉ known := by
  induction vs with
  | nil => simp [stagePage]
  | cons v rest ih =>
    by_cases h : v.id ∈ known
    · simp [stagePage, h]
    · intro x hx
      rw [stagePage, if_neg (by simpa using h)] at hx
      simp only [List.mem_cons] at hx
      rcases hx with rfl | hx
      · exact h
      · exact ih x hx

theorem stagePage_all (known : List String) (vs : List Video) :
    (stagePage known vs).1.all (fun v => !known.contains v.id) = true := by
  rw [List.all_eq_true]
  intro v hv
  simpa using stagePage_all_prop known vs v hv

theorem refreshWalk_all_prop (pages : Option String → ChannelVideosPage)
    (known : List String) :
    ∀ (fuel : Nat) (tok : Option String),
      ∀ x ∈ (refreshWalk pages known fuel tok).1, x.id ∉ known := by
  intro fuel
  induction fuel with
  | zero => intro tok; simp [refreshWalk]
  | succ n ih =>
    intro tok
    simp only [refreshWalk]
    split
    · simp
    · split
      · exact stagePage_all_prop known _
      · split
        · exact stagePage_all_prop known _
        · intro x hx
          simp only [List.mem_append] at hx
          rcases hx with hx | hx
          · exact stagePage_all_prop known _ x hx
          · exact ih _ x hx

theorem refreshWalk_all (pages : Option String → ChannelVideosPage)
    (known : List String) (fuel : Nat) (tok : Option String) :
    (refreshWalk pages known fuel tok).1.all (fun v => !known.contains v.id) = true := by
  rw [List.all_eq_true]
  intro v hv
  simpa using refreshWalk_all_prop pages known fuel tok v hv

/-- C8. The refresh page walk stages exactly the items strictly before the
first already-known identity: per page the staged prefix is the
`takeWhile`-unknown prefix and the stop flag fires iff a known id occurs; no
staged item of a whole walk is already known; on the spec's scenario page
`[new1, new2, known1, known2]` with `known1`/`known2` known, exactly
`[new1, new2]` is staged from a single page fetch, and the one bulk insert
adds exactly those ids while skipping duplicates instead of failing. -/
theorem C8_refresh_walk :
    (∀ (known : List String) (vs : List Video),
      (stagePage known vs).1 = vs.takeWhile (fun v => !known.contains v.id) ∧
      (stagePage known vs).2 = vs.any (fun v => known.contains v.id)) ∧
    (∀ (pages : Option String → ChannelVideosPage) (known : List String)
      (fuel : Nat) (tok : Option String),
      (refreshWalk pages known fuel tok).1.all (fun v => !known.contains v.id) = true) ∧
    refreshWalk refreshPages ["known1", "known2"] 5 none =
      ([rVid "new1" 4, rVid "new2" 3], 1) ∧
    insertIgnoringDuplicates ["known1", "known2"]
      ((refreshWalk refreshPages ["known1", "known2"] 5 none).1.map (fun v => v.id)) =
      ["known1", "known2", "new1", "new2"] ∧
    insertIgnoringDuplicates ["a"] ["a", "b", "b"] = ["a", "b"] :=
  ⟨stagePage_spec, refreshWalk_all, by decide, by decide, by decide⟩

/-! ### Upstream client lemmas -/

theorem listPageBody_details_fail (u : String) (items : List RawItem)
    (nextTok : Option String) (status : Nat) (q : Bool) :
    listPageBody u (.ok (items, nextTok)) (.fail status q) =
      .ok { playlistId := some u
            videos := items.map (fun it =>
              { id := it.videoId, title := it.title
                thumbnail := jsOrOpt it.thumbHigh it.thumbDefault
                channelId := it.channelId, channelTitle := it.channelTitle
                publishedAt := it.publishedAt, duration := ""
                isShort := false })
            nextPageToken := nextTok } := by
  simp only [listPageBody, ite_self, lookupStr, Option.getD_none,
    show isShortDuration "" = false from rfl]

/-- C10. If the batched duration-details request of `getChannelVideosPage`
comes back non-OK (any status), the page is still returned successfully
rather than erroring, and every item of that page carries the empty duration
string and is classified `isShort = false`. -/
theorem C10_details_failure_fallback :
    ∀ (playlistId : Option String) (channelResp : ApiResp (Option String))
      (items : List RawItem) (nextTok : Option String) (status : Nat) (q : Bool),
      (playlistId.getD "" = "" → ∃ u, channelResp = .ok (some u)) →
      ∃ pl page,
        getChannelVideosPage playlistId channelResp (.ok (items, nextTok))
          (.fail status q) = .ok page ∧
        page.playlistId = some pl ∧
        page.nextPageToken = nextTok ∧
        page.videos.length = items.length ∧
        ∀ v ∈ page.videos, v.duration = "" ∧ v.isShort = false := by
  intro playlistId channelResp items nextTok status q hres
  by_cases hp : playlistId.getD "" = ""
  · obtain ⟨u, hu⟩ := hres hp
    subst hu
    refine ⟨u,
      { playlistId := some u
        videos := items.map (fun it =>
          { id := it.videoId, title := it.title
            thumbnail := jsOrOpt it.thumbHigh it.thumbDefault
            channelId := it.channelId, channelTitle := it.channelTitle
            publishedAt := it.publishedAt, duration := ""
            isShort := false })
        nextPageToken := nextTok }, ?_, rfl, rfl, by simp, ?_⟩
    · unfold getChannelVideosPage
      rw [if_pos hp]
      exact listPageBody_details_fail u items nextTok status q
    · intro v hv
      simp only [List.mem_map] at hv
      obtain ⟨it, -, rfl⟩ := hv
      exact ⟨rfl, rfl⟩
  · refine ⟨playlistId.getD "",
      { playlistId := some (playlistId.getD "")
        videos := items.map (fun it =>
          { id := it.videoId, title := it.title
            thumbnail := jsOrOpt it.thumbHigh it.thumbDefault
            channelId := it.channelId, channelTitle := it.channelTitle
            publishedAt := it.publishedAt, duration := ""
            isShort := false })
        nextPageToken := nextTok }, ?_, rfl, rfl, by simp, ?_⟩
    · unfold getChannelVideosPage
      rw [if_neg hp]
      exact listPageBody_details_fail (playlistId.getD "") items nextTok status q
    · intro v hv
      simp only [List.mem_map] at hv
      obtain ⟨it, -, rfl⟩ := hv
      exact ⟨rfl, rfl⟩

/-- C10, witness: a supplied playlist handle, one raw item, and a failed
(500) details response. -/
theorem C10_details_failure_fallback_witness :
    ∃ pl page,
      getChannelVideosPage (some "up") (.fail 500 false)
        (.ok ([rawItem "a"], some "t")) (.fail 500 false) = .ok page ∧
      page.playlistId = some pl ∧
      page.nextPageToken = some "t" ∧
      page.videos.length = [rawItem "a"].length ∧
      ∀ v ∈ page.videos, v.duration = "" ∧ v.isShort = false :=
  C10_details_failure_fallback (some "up") (.fail 500 false) [rawItem "a"]
    (some "t") 500 false (fun h => absurd h (by decide))

end MyTube
